import Mathlib

/-!
# Verification of the NTSB docket crawler (`src/ntsb_crawler.py`)

This file is a shallow embedding, in Lean 4, of the single-file Python
program `ntsb_crawler.py`.  The program fetches a docket listing page,
extracts one record per qualifying table row into a dictionary
(`masterdict`), resolves a per-record download URL from each record's
detail page, downloads each file (with an ad-hoc retry loop), and writes
a CSV summary.

Modelling conventions:

* Python dictionaries are association lists (`List (key × value)`) in
  insertion order; assignment to an existing key replaces the entry in
  place, assignment to a fresh key appends (CPython 3.7+ semantics).
* Record field values are `FVal` (string or integer), mirroring the mix
  of `str` and `int` values stored in `masterdict[docno]`.
* External effects are oracles in an `Env` structure: the listing fetch,
  the per-record detail-page fetch, and the outcome of each download
  attempt.  A run is a pure function of `Env`.  HTTP transport errors are
  `Except`/oracle failure values; an exception the Python code does not
  catch becomes an `Except.error` result of the run (an aborted run).
* The run state tracks the record map, the chronological network request
  log, the set of files existing on disk, the chronological writes to the
  per-record `download` status field, and the CSV content (if the CSV
  file was created).
* `datetime.strptime(s, "%b %d, %Y")` is modelled character by character
  after CPython's `_strptime` regexes: case-insensitive month
  abbreviation, one-or-more whitespace for the format's blanks, day
  `3[01]|[12]\d|0[1-9]|[1-9]` bounded to 1..31, a literal comma, exactly
  four year digits, no trailing input; `datetime` construction then
  validates the day against the month length (with leap years) and
  rejects year 0.  `strftime("%Y-%m-%d")` zero-pads month and day to two
  digits; `%Y` renders the year unpadded, as glibc does on the Linux
  platforms this script targets (so year 123 renders as "123").
* `slugify` from python-slugify is modelled on ASCII input: lowercase,
  non-alphanumeric runs collapsed to single hyphens, hyphens trimmed.
* Lines 119-121 of the source are syntactically garbled (a missing `):`
  after the `if (` condition); the embedding reads them as the evident
  intent, `if (len(detailurl) <= 2 or detailurl == ".../Download"):`
  followed by the indented `try/except` block.  The stray pasted
  traceback text at line 145 is ignored as non-executable.
-/

namespace Ntsb

/-- A value stored in a record's field dictionary: the Python code stores
strings and ints. -/
inductive FVal where
  | str (s : String)
  | int (n : Int)
  deriving DecidableEq, Repr

/-- Rendering of a field value as the CSV writer prints it
(`str` of the value). -/
def FVal.render : FVal → String
  | .str s => s
  | .int n => toString n

/-- One record's field dictionary (`masterdict[docno]`), in insertion
order. -/
abbrev Rec := List (String × FVal)

/-- The record mapping `masterdict`, in insertion order. -/
abbrev RMap := List (Int × Rec)

/-- Python dict assignment `d[k] = v`: replace the (first) entry in
place when the key exists, append otherwise. -/
def setF : Rec → String → FVal → Rec
  | [], k, v => [(k, v)]
  | p :: r, k, v => if p.1 = k then (k, v) :: r else p :: setF r k v

/-- Python dict lookup `d[k]` (as an option). -/
def getF : Rec → String → Option FVal
  | [], _ => none
  | p :: r, k => if p.1 = k then some p.2 else getF r k

/-- Python dict assignment on the record mapping. -/
def upsert : RMap → Int → Rec → RMap
  | [], k, v => [(k, v)]
  | p :: m, k, v => if p.1 = k then (k, v) :: m else p :: upsert m k v

/-- Python dict lookup on the record mapping. -/
def lookupR : RMap → Int → Option Rec
  | [], _ => none
  | p :: m, k => if p.1 = k then some p.2 else lookupR m k

/-! ## Python primitive models

All character-level work is done on `List Char` (`String.data`), because
the position-based `String` functions of the Lean core library do not
reduce inside the kernel. -/

/-- Trim whitespace from both ends of a character list. -/
def trimChars (cs : List Char) : List Char :=
  ((cs.dropWhile Char.isWhitespace).reverse.dropWhile
    Char.isWhitespace).reverse

/-- Python `s.strip()`. -/
def pyStrip (s : String) : String := String.mk (trimChars s.data)

/-- Value of a nonempty all-digit character list, `none` otherwise. -/
def natOfDigits : List Char → Option Nat
  | [] => none
  | cs =>
    if cs.all Char.isDigit then
      some (cs.foldl (fun a c => a * 10 + (c.toNat - 48)) 0)
    else none

/-- Python `int(s)` on a string: optional sign followed by one or more
decimal digits (surrounding whitespace stripped); `none` models the
`ValueError` raised otherwise. -/
def pyInt? (s : String) : Option Int :=
  match trimChars s.data with
  | '-' :: ds => (natOfDigits ds).map (fun n => -(n : Int))
  | '+' :: ds => (natOfDigits ds).map (fun n => (n : Int))
  | ds => (natOfDigits ds).map (fun n => (n : Int))

/-- Helper for `wordsBy`: `acc` is the current run, reversed. -/
def wordsByAux (p : Char → Bool) : List Char → List Char → List (List Char)
  | [], acc => if acc.isEmpty then [] else [acc.reverse]
  | c :: cs, acc =>
    if p c then
      if acc.isEmpty then wordsByAux p cs []
      else acc.reverse :: wordsByAux p cs []
    else wordsByAux p cs (c :: acc)

/-- Split a character list into maximal runs not satisfying `p`,
dropping empty runs. -/
def wordsBy (p : Char → Bool) (cs : List Char) : List (List Char) :=
  wordsByAux p cs []

/-- Python `s.split()`: split on whitespace runs, dropping empty pieces. -/
def pySplitWs (s : String) : List String :=
  (wordsBy Char.isWhitespace s.data).map String.mk

/-! ## Date conversion (`strptime`/`strftime`, lines 77-78) -/

/-- ASCII lowercasing of one character. -/
def lowChar (c : Char) : Char :=
  if 65 ≤ c.toNat && c.toNat ≤ 90 then Char.ofNat (c.toNat + 32) else c

/-- ASCII lowercasing of a character list (model of the IGNORECASE
matching of `%b` and of Python `str.lower`). -/
def lowerChars (cs : List Char) : List Char := cs.map lowChar

/-- Lowercased month abbreviations recognised by `%b` in the C locale. -/
def monthNames : List String :=
  ["jan", "feb", "mar", "apr", "may", "jun",
   "jul", "aug", "sep", "oct", "nov", "dec"]

/-- Match a literal character sequence at the head of the input. -/
def takeChars : List Char → List Char → Option (List Char)
  | [], cs => some cs
  | _ :: _, [] => none
  | a :: ps, c :: cs => if a = c then takeChars ps cs else none

/-- Try the month abbreviations in order, numbering from `i`. -/
def monthAux : Nat → List String → List Char → Option (Nat × List Char)
  | _, [], _ => none
  | i, n :: ns, cs =>
    match takeChars n.toList cs with
    | some rest => some (i, rest)
    | none => monthAux (i + 1) ns cs

/-- Parse `%b` (input already lowercased): month number 1..12. -/
def parseMonthL (cs : List Char) : Option (Nat × List Char) :=
  monthAux 1 monthNames cs

/-- The regex `\s+` that whitespace in the strptime format compiles to:
at least one whitespace character, consumed maximally. -/
def dropWs1 : List Char → Option (List Char)
  | [] => none
  | c :: cs =>
    if c.isWhitespace then some (cs.dropWhile Char.isWhitespace) else none

/-- Numeric value of a decimal digit character. -/
def digitVal (c : Char) : Nat := c.toNat - 48

/-- Parse `%d`, CPython pattern `3[01]|[12]\d|0[1-9]|[1-9]`: one or two
digits with value 1..31 (two-digit form excludes 00 and 32..99). -/
def parseDayL : List Char → Option (Nat × List Char)
  | [] => none
  | [c] =>
    if c.isDigit && 1 ≤ digitVal c then some (digitVal c, []) else none
  | c1 :: c2 :: rest =>
    if c1.isDigit && c2.isDigit then
      let v := digitVal c1 * 10 + digitVal c2
      if 1 ≤ v && v ≤ 31 then some (v, rest) else none
    else if c1.isDigit && 1 ≤ digitVal c1 then
      some (digitVal c1, c2 :: rest)
    else none

/-- Parse `%Y`, CPython pattern `\d\d\d\d`: exactly four digits. -/
def parse4Y : List Char → Option (Nat × List Char)
  | a :: b :: c :: d :: rest =>
    if a.isDigit && b.isDigit && c.isDigit && d.isDigit then
      some (((digitVal a * 10 + digitVal b) * 10 + digitVal c) * 10
              + digitVal d, rest)
    else none
  | _ => none

/-- Gregorian leap-year rule used by `datetime`. -/
def isLeap (y : Nat) : Bool :=
  y % 4 = 0 && (y % 100 ≠ 0 || y % 400 = 0)

/-- Days in a month, as `datetime` validates them. -/
def daysInMonth (y m : Nat) : Nat :=
  if m = 2 then (if isLeap y then 29 else 28)
  else if m = 4 ∨ m = 6 ∨ m = 9 ∨ m = 11 then 30
  else 31

/-- Model of `datetime.strptime(s, "%b %d, %Y")` followed by `datetime`
construction: returns `(year, month, day)` or `none` for the
`ValueError` the Python call raises. -/
def parseDate (s : String) : Option (Nat × Nat × Nat) :=
  match parseMonthL (lowerChars s.data) with
  | none => none
  | some (m, cs1) =>
    match dropWs1 cs1 with
    | none => none
    | some cs2 =>
      match parseDayL cs2 with
      | none => none
      | some (d, cs3) =>
        match cs3 with
        | [] => none
        | c :: cs4 =>
          if c = ',' then
            match dropWs1 cs4 with
            | none => none
            | some cs5 =>
              match parse4Y cs5 with
              | none => none
              | some (y, rest) =>
                match rest with
                | [] =>
                  if 1 ≤ y && d ≤ daysInMonth y m then some (y, m, d)
                  else none
                | _ :: _ => none
          else none

/-- Zero-padding to two digits, as `strftime` does for `%m` and `%d`. -/
def pad2 (n : Nat) : String :=
  if n < 10 then "0" ++ toString n else toString n

/-- Model of `datetime.strftime(d, "%Y-%m-%d")`: `%Y` unpadded (glibc),
`%m`/`%d` zero-padded to two digits. -/
def isoOf (y m d : Nat) : String :=
  toString y ++ "-" ++ pad2 m ++ "-" ++ pad2 d

/-- The composed date conversion of lines 77-78: strptime then strftime. -/
def dateToIso (s : String) : Option String :=
  (parseDate s).map (fun t => isoOf t.1 t.2.1 t.2.2)

/-! ## `slugify` (line 134) -/

/-- Join character-list words with single hyphens. -/
def joinHyphen : List (List Char) → List Char
  | [] => []
  | [w] => w
  | w :: ws => w ++ '-' :: joinHyphen ws

/-- Model of python-slugify on ASCII text: lowercase, non-alphanumeric
runs collapsed to single hyphens, leading/trailing hyphens removed. -/
def slugify (s : String) : String :=
  let cs := s.data.map (fun c => if c.isAlphanum then lowChar c else ' ')
  String.mk (joinHyphen (wordsBy (fun c => c = ' ') cs))

/-! ## Page model and record extraction (lines 57-91) -/

/-- One `<td>` cell of a listing row: its text content, the `href` of
the first embedded anchor (if any anchor with an `href` is present), and
`str(pq(cell).html())` as the page-count code computes it. -/
structure Cell where
  text : String
  href : Option String := none
  html : String := "None"
  deriving DecidableEq, Repr

/-- One `<tr>` of the listing page: its CSS classes and its `<td>`s. -/
structure Row where
  classes : List String := []
  tds : List Cell := []
  deriving DecidableEq, Repr

/-- The parsed listing page. -/
structure ListingPage where
  title : String := ""
  rows : List Row := []
  deriving DecidableEq, Repr

/-- URL fragments from the top of the source file (`https` site roots). -/
def masterUrlPre : String := "https://dms.ntsb.gov/pubdms/search/"

/-- Root prefixed to resolved detail URLs. -/
def detailUrlPre : String := "https://dms.ntsb.gov/"

/-- Listing URL template, left part. -/
def docketUrlPre : String :=
  "https://dms.ntsb.gov/pubdms/search/hitlist.cfm?docketID="

/-- Listing URL template, right part. -/
def docketUrlSuf : String :=
  "&StartRow=1&EndRow=3000&CurrentPage=1&order=1&sort=0&TXTSEARCHT="

/-- Line 60: `tr.filter(".odd") + tr.filter(".leave")` — the rows
carrying class `odd`, in page order, followed by those carrying class
`leave`. -/
def allRows (p : ListingPage) : List Row :=
  p.rows.filter (fun r => r.classes.contains "odd")
    ++ p.rows.filter (fun r => r.classes.contains "leave")

/-- `pq(row)("td")[i]`: `none` models the `IndexError`. -/
def tdAt (row : Row) (i : Nat) : Option Cell := row.tds.get? i

/-- Python `s.replace("--", "")`: remove non-overlapping double-hyphen
occurrences, scanning left to right. -/
def stripDoubleDash : List Char → List Char
  | '-' :: '-' :: rest => stripDoubleDash rest
  | c :: rest => c :: stripDoubleDash rest
  | [] => []

/-- Lines 80-87: `int(str(td.html()).replace("--", "").strip())` with any
exception (missing cell or non-numeric text) coerced to 0. -/
def pagesOf (row : Row) (i : Nat) : Int :=
  match tdAt row i with
  | none => 0
  | some c =>
    match pyInt? (String.mk (stripDoubleDash c.html.data)) with
    | some n => n
    | none => 0

/-- Lines 70-91, the per-row field extraction after the row's `docno` has
been parsed.  Returns the completed field dictionary, or the exception
name together with the partially filled dictionary at the point the
uncaught exception is raised (`IndexError` from a missing `td`,
`TypeError` from `masterurlprefix + None` when the title cell has no
anchor `href`, `ValueError` from `strptime` on an unparseable date). -/
def rowFields (row : Row) : (String × Rec) ⊕ Rec :=
  match tdAt row 1 with
  | none => Sum.inl ("IndexError", [])
  | some td1 =>
    match tdAt row 2 with
    | none => Sum.inl ("IndexError", [])
    | some td2 =>
      let r1 : Rec := setF [] "doctitle" (.str td2.text)
      match td2.href with
      | none => Sum.inl ("TypeError", r1)
      | some href =>
        let r2 := setF r1 "docmasterurl" (.str (masterUrlPre ++ href))
        match parseDate (pyStrip td1.text) with
        | none => Sum.inl ("ValueError", r2)
        | some (y, m, d) =>
          let r3 := setF r2 "docdate" (.str (isoOf y m d))
          let r4 := setF r3 "docpages" (.int (pagesOf row 3))
          let r5 := setF r4 "docphotos" (.int (pagesOf row 4))
          Sum.inr r5

/-- Lines 67-91, one iteration of the row loop: parse `docno` from
`td[0]`, create `masterdict[docno] = {}` (overwriting any previous entry
with the same key), then fill the fields.  An error result carries the
mapping as it stands when the uncaught exception aborts the run. -/
def processRow (m : RMap) (row : Row) : Except (String × RMap) RMap :=
  match tdAt row 0 with
  | none => .error ("IndexError", m)
  | some td0 =>
    match pyInt? td0.text with
    | none => .error ("ValueError", m)
    | some docno =>
      match rowFields row with
      | Sum.inl (e, part) => .error (e, upsert m docno part)
      | Sum.inr r => .ok (upsert m docno r)

/-- The whole extraction loop over `allrows`. -/
def extractRows : List Row → RMap → Except (String × RMap) RMap
  | [], m => .ok m
  | row :: rest, m =>
    match processRow m row with
    | .error e => .error e
    | .ok m' => extractRows rest m'

/-! ## Detail-URL resolution (lines 103-141) -/

/-- An `<input>` element of a record's detail page. -/
structure Inp where
  value : Option String := none
  onclick : Option String := none
  deriving DecidableEq, Repr

/-- An `<option>` element of a record's detail page. -/
structure Opt where
  value : Option String := none
  deriving DecidableEq, Repr

/-- A record's detail page (`docmasterhtml`). -/
structure DetailPage where
  inputs : List Inp := []
  options : List Opt := []
  deriving DecidableEq, Repr

/-- Python negative indexing `options[-2]`: `none` models the
`IndexError` when fewer than two options exist. -/
def optPenult (l : List Opt) : Option Opt :=
  if l.length ≥ 2 then l.get? (l.length - 2) else none

/-- Test for the single-quote character (written by code point to keep
the text free of quote literals). -/
def isQuoteChar (c : Char) : Bool := c.toNat = 39

/-- Characters strictly between the last two single quotes of a string. -/
def betweenLastQuotes (cs : List Char) : List Char :=
  ((cs.reverse.dropWhile (fun c => !isQuoteChar c)).drop 1).takeWhile
    (fun c => !isQuoteChar c) |>.reverse

/-- Lines 116-118: `re.sub("(.*')(.*)('.*)", r"\2", s)`.  The greedy
match replaces the whole string by the text between its last two single
quotes; with fewer than two quotes the pattern does not match and the
string is unchanged. -/
def reSubMiddle (s : String) : String :=
  if 2 ≤ s.data.countP (fun c => isQuoteChar c) then
    String.mk (betweenLastQuotes s.data)
  else s

/-- Lines 108-128: derive `detailurl` from a detail page.  An error is
an exception the code does not catch (aborting the run): the
`option[-2]` fallback inside the first `except` block is itself
unprotected, as is the `onclick` regex path; the final fallback block
(lines 122-128) catches its own failures and keeps the previous value. -/
def deriveDetailUrl (dp : DetailPage) : Except String String :=
  let step1 : Except String String :=
    match dp.inputs.get? 1 with
    | some inp =>
      match inp.value with
      | some v => .ok (detailUrlPre ++ v)
      | none => .error "TypeError"
    | none => .error "IndexError"
  let afterTry : Except String String :=
    match step1 with
    | .ok u => .ok u
    | .error _ =>
      match optPenult dp.options with
      | none => .error "IndexError"
      | some o =>
        match o.value with
        | some v => .ok (detailUrlPre ++ v)
        | none => .error "TypeError"
  match afterTry with
  | .error e => .error e
  | .ok u0 =>
    let afterView : Except String String :=
      if u0 = "https://dms.ntsb.gov/View" then
        match dp.inputs.get? 1 with
        | none => .error "IndexError"
        | some inp =>
          match inp.onclick with
          | none => .error "TypeError"
          | some oc => .ok (detailUrlPre ++ reSubMiddle oc)
      else .ok u0
    match afterView with
    | .error e => .error e
    | .ok u =>
      if u.length ≤ 2 ∨ u = "http://dms.ntsb.gov/Download" then
        match optPenult dp.options with
        | some o =>
          match o.value with
          | some v => .ok (detailUrlPre ++ v)
          | none => .ok u
        | none => .ok u
      else .ok u

/-- Line 137: `detailurl.split(".")[-1]` — the text after the last dot,
or the whole string when no dot occurs. -/
def extOf (u : String) : String :=
  String.mk ((u.data.reverse.takeWhile (fun c => c ≠ '.')).reverse)

/-! ## Environment oracles and run state -/

/-- Outcome of one download attempt (one `requests.get` of the detail
URL together with the subsequent `open`/write):
`getRaises` — `requests.get` itself raises (transport failure);
`openRaises` — the GET succeeds but `open(localfilename, "wb")` raises,
so no file is created; `writeRaises` — the file is opened (created or
truncated) but writing raises; `ok` — the body is written completely. -/
inductive AOut where
  | getRaises
  | openRaises
  | writeRaises
  | ok
  deriving DecidableEq, Repr

/-- One outbound HTTP request, as logged chronologically. -/
inductive Req where
  | listing (url : String)
  | resolve (url : String)
  | download (url : String)
  deriving DecidableEq, Repr

/-- The HTTP response to the listing fetch.  `ok` is the HTTP success
flag; the code never inspects it (`raw.content` is parsed whatever the
status was). -/
structure HttpResp where
  ok : Bool := true
  page : ListingPage := {}
  deriving DecidableEq, Repr

/-- The external world: the listing fetch (`Except.error` is a transport
failure raised by `requests.get`), the per-URL detail-page fetch, the
outcome of the `n`-th download attempt (0 = the initial attempt) for the
record with the given id, and the files present on disk before the run. -/
structure Env where
  resp : Except Unit HttpResp
  detail : String → Except Unit DetailPage := fun _ => .ok {}
  attempt : Int → Nat → AOut := fun _ _ => .ok
  initFiles : List String := []

/-- Observable state of a run: the record mapping, the chronological
request log, the files on disk, the chronological writes to the
per-record `download` status field, and the content of the CSV file
(`none` when the file was never created). -/
structure RunState where
  map : RMap := []
  net : List Req := []
  files : List String := []
  writes : List (Int × String) := []
  csv : Option (List (List String)) := none
  deriving Repr

/-! ## Download engine (lines 147-197) -/

/-- Add a path to the disk state (idempotent). -/
def addFile (files : List String) (f : String) : List String :=
  if f ∈ files then files else files ++ [f]

/-- The status strings the code stores in `masterdict[record]["download"]`.
`Good` on a complete write. -/
def stGood : String := "Good"

/-- Status string stored after a failed attempt. -/
def stBad : String := "Bad"

/-- Status string stored when the local file already exists (the spec
calls this status `AlreadyExists`). -/
def stAlreadyExists : String := "File already existed"

/-- Lines 174-197, the retry loop `while attempts < 3 and not success`:
here `budget` is `3 - attempts` and `tryIdx` numbers the GETs issued for
this record so far.  Inside the loop `requests.get` is inside the `try`,
so every failure is caught: it appends a `Bad` status write, and the
loop retries until success or exhaustion.  Returns the updated disk
state, request log, and status-write list. -/
def runRetries (o : Nat → AOut) (url file : String) :
    Nat → Nat → List String → List Req → List String →
    List String × List Req × List String
  | 0, _, files, net, ws => (files, net, ws)
  | b + 1, tryIdx, files, net, ws =>
    let net' := net ++ [Req.download url]
    match o tryIdx with
    | .ok => (addFile files file, net', ws ++ [stGood])
    | .getRaises => runRetries o url file b (tryIdx + 1) files net' (ws ++ [stBad])
    | .openRaises => runRetries o url file b (tryIdx + 1) files net' (ws ++ [stBad])
    | .writeRaises =>
      runRetries o url file b (tryIdx + 1) (addFile files file) net' (ws ++ [stBad])

/-- Lines 147-197, processing of one record by the download loop.  If
the local file exists the record is skipped with status
`File already existed` and no request.  Otherwise the initial
`requests.get` (line 158) sits OUTSIDE the `try` block: if it raises,
the exception is uncaught and the run aborts (`Except.error`); a failure
of the open/write is caught, writes `Bad`, and enters the retry loop.
Returns the disk state, request log, and the chronological list of
writes to the `download` field. -/
def downloadRecord (o : Nat → AOut) (url file : String)
    (files : List String) (net : List Req) :
    Except (String × List String × List Req × List String)
      (List String × List Req × List String) :=
  if file ∈ files then .ok (files, net, [stAlreadyExists])
  else
    let net' := net ++ [Req.download url]
    match o 0 with
    | .getRaises => .error ("requests exception", files, net', [])
    | .ok => .ok (addFile files file, net', [stGood])
    | .openRaises => .ok (runRetries o url file 3 1 files net' [stBad])
    | .writeRaises =>
      .ok (runRetries o url file 3 1 (addFile files file) net' [stBad])

/-! ## The run pipeline -/

/-- Lines 103-141, one iteration of the URL-resolution loop: GET the
record's `docmasterurl` (unprotected, a transport failure aborts),
derive `detailurl`, store it, and compute and store `localfilename =
docketid + "/" + docdate + "-" + slugify(doctitle) + "." + ext`.
Errors carry the request log and the record as left at the abort. -/
def resolveRecord (det : String → Except Unit DetailPage)
    (docketid : String) (net : List Req) (kv : Int × Rec) :
    Except (String × List Req × (Int × Rec)) (List Req × (Int × Rec)) :=
  match getF kv.2 "docmasterurl" with
  | some (.str url) =>
    let net' := net ++ [Req.resolve url]
    match det url with
    | .error _ => .error ("requests exception", net', kv)
    | .ok dp =>
      match deriveDetailUrl dp with
      | .error e => .error (e, net', kv)
      | .ok durl =>
        let r1 := setF kv.2 "detailurl" (.str durl)
        match getF r1 "doctitle", getF r1 "docdate" with
        | some (.str title), some (.str docdate) =>
          let fn := docketid ++ "/" ++ (docdate ++ "-" ++ slugify title)
              ++ "." ++ extOf durl
          .ok (net', (kv.1, setF r1 "localfilename" (.str fn)))
        | _, _ => .error ("KeyError", net', (kv.1, r1))
  | _ => .error ("KeyError", net, kv)

/-- The URL-resolution loop over the mapping in insertion order.  On an
abort, the partly updated mapping (processed records, the failing one,
then the untouched tail) is returned with the log. -/
def resolvePhase (det : String → Except Unit DetailPage) (docketid : String) :
    List (Int × Rec) → List Req → RMap →
    Except (String × List Req × RMap) (List Req × RMap)
  | [], net, done => .ok (net, done)
  | kv :: rest, net, done =>
    match resolveRecord det docketid net kv with
    | .error (e, net', kv') => .error (e, net', done ++ kv' :: rest)
    | .ok (net', kv') => resolvePhase det docketid rest net' (done ++ [kv'])

/-- Line 142: `OrderedDict(sorted(masterdict.items(), key=lambda t: t[0]))`. -/
def sortByKey (m : RMap) : RMap :=
  List.insertionSort (fun a b => a.1 ≤ b.1) m

/-- The download loop over the sorted mapping.  Each record's
`localfilename` and `detailurl` fields are read back from the mapping;
the record's `download` field ends as the last status written. -/
def downloadPhase (att : Int → Nat → AOut) :
    List (Int × Rec) → List Req → List String → List (Int × String) → RMap →
    Except (String × List Req × List String × List (Int × String) × RMap)
      (List Req × List String × List (Int × String) × RMap)
  | [], net, files, ws, done => .ok (net, files, ws, done)
  | (k, r) :: rest, net, files, ws, done =>
    match getF r "localfilename", getF r "detailurl" with
    | some (.str file), some (.str url) =>
      (match downloadRecord (att k) url file files net with
       | .error (e, files', net', ws') =>
         .error (e, net', files', ws ++ ws'.map (fun w => (k, w)),
           done ++ (k, r) :: rest)
       | .ok (files', net', ws') =>
         let r' := setF r "download" (.str (ws'.getLastD ""))
         downloadPhase att rest net' files'
           (ws ++ ws'.map (fun w => (k, w))) (done ++ [(k, r')]))
    | _, _ => .error ("KeyError", net, files, ws, done ++ (k, r) :: rest)

/-- Sort a record's fields by name (line 203 and line 211 use
`sorted(dict.items())`). -/
def sortFields (r : Rec) : Rec :=
  List.insertionSort (fun a b => a.1 ≤ b.1) r

/-- The header row (lines 202-208): three run-identifying columns
followed by the field names of the given record in sorted order. -/
def headerOf (r : Rec) : List String :=
  ["accidentnumber", "docketid", "recordnumber"]
    ++ (sortFields r).map (fun p => p.1)

/-- A data row (lines 210-214): accident number, docket id, record id,
then the record's field values in sorted field order, rendered as text. -/
def renderRow (accno docketid : String) (k : Int) (r : Rec) : List String :=
  [accno, docketid, toString k] ++ (sortFields r).map (fun p => p.2.render)

/-- Lines 199-215, the CSV writer block, applied to the already-sorted
mapping.  The header is derived from `masterdict[record]` where `record`
is the loop variable left over from the download loop, i.e. the LAST key
of the sorted mapping.  With an empty mapping, `record` is unbound: the
`open(...)` has already created an empty CSV file and the run aborts
with a `NameError`; the error payload is the (empty) file content. -/
def csvPhase (accno docketid : String) (m : RMap) :
    Except (String × List (List String)) (List (List String)) :=
  match m.getLast? with
  | none => .error ("NameError", [])
  | some last =>
    .ok (headerOf last.2
      :: m.map (fun kv => renderRow accno docketid kv.1 kv.2))

/-- The whole run of `ntsb_crawler.py` on docket `docketid` against the
environment `env`.  `Except.error` is a run aborted by an uncaught
exception; the payload carries the exception name and the state at the
abort. -/
def runCrawler (docketid : String) (env : Env) :
    Except (String × RunState) RunState :=
  let url := docketUrlPre ++ docketid ++ docketUrlSuf
  let net0 : List Req := [Req.listing url]
  match env.resp with
  | .error _ =>
    .error ("requests exception",
      { net := net0, files := env.initFiles })
  | .ok resp =>
    let page := resp.page
    match (pySplitWs page.title).get? 2 with
    | none =>
      .error ("IndexError", { net := net0, files := env.initFiles })
    | some accno =>
      match extractRows (allRows page) [] with
      | .error (e, m) =>
        .error (e, { map := m, net := net0, files := env.initFiles })
      | .ok m =>
        match resolvePhase env.detail docketid m net0 [] with
        | .error (e, net, m') =>
          .error (e, { map := m', net := net, files := env.initFiles })
        | .ok (net, m') =>
          let msorted := sortByKey m'
          match downloadPhase env.attempt msorted net env.initFiles [] [] with
          | .error (e, net', files', ws, m2) =>
            .error (e, { map := m2, net := net', files := files', writes := ws })
          | .ok (net', files', ws, m2) =>
            match csvPhase accno docketid m2 with
            | .error (_, content) =>
              .error ("NameError",
                { map := m2, net := net', files := files', writes := ws,
                  csv := some content })
            | .ok content =>
              .ok { map := m2, net := net', files := files', writes := ws,
                    csv := some content }

/-! ## Projections of a run result (shared by several claims) -/

/-- The request log of a run, aborted or not. -/
def netOf : Except (String × RunState) RunState → List Req
  | .error (_, s) => s.net
  | .ok s => s.net

/-- The CSV content of a run, aborted or not. -/
def csvOf : Except (String × RunState) RunState → Option (List (List String))
  | .error (_, s) => s.csv
  | .ok s => s.csv

/-- The status-write log of a run, aborted or not. -/
def writesOf : Except (String × RunState) RunState → List (Int × String)
  | .error (_, s) => s.writes
  | .ok s => s.writes

/-- Whether the run aborted with an uncaught exception. -/
def aborted : Except (String × RunState) RunState → Bool
  | .error _ => true
  | .ok _ => false

/-- Whether a generic `Except` is an error (used for claims about
single phases). -/
def isErr {ε α : Type} : Except ε α → Bool
  | .error _ => true
  | .ok _ => false

/-- The request-log projection of a `resolveRecord` result. -/
def resNetOf :
    Except (String × List Req × (Int × Rec)) (List Req × (Int × Rec)) →
      List Req
  | .error (_, net, _) => net
  | .ok (net, _) => net

/-! ## Concrete fixtures used to evaluate the model -/

/-- A complete five-column listing row with id 1. -/
def rowA : Row :=
  { classes := ["odd"]
    tds := [{ text := "1" }, { text := "Jan 5, 2021" },
            { text := "Engine Report", href := some "s.cfm?id=9" },
            { text := "3", html := "3" }, { text := "--", html := "--" }] }

/-- A complete three-column listing row with id 2. -/
def rowB : Row :=
  { classes := ["leave"]
    tds := [{ text := "2" }, { text := "Mar 4, 2020" },
            { text := "Photo A", href := some "t.cfm?id=4" }] }

/-- A row with id 1 (a duplicate of `rowA`'s id) but different data. -/
def rowDup : Row :=
  { classes := ["leave"]
    tds := [{ text := "1" }, { text := "Mar 4, 2020" },
            { text := "Photo A", href := some "t.cfm?id=4" }] }

/-- A row whose date cell does not parse. -/
def rowBadDate : Row :=
  { classes := ["odd"]
    tds := [{ text := "7" }, { text := "Janx 5" },
            { text := "T", href := some "u" }] }

/-- A row whose title cell has no anchor `href`. -/
def rowNoHref : Row :=
  { classes := ["odd"]
    tds := [{ text := "8" }, { text := "Jan 5, 2021" }, { text := "T" }] }

/-- A row with a single column. -/
def rowShort : Row := { classes := ["odd"], tds := [{ text := "9" }] }

/-- A one-record listing page (title gives `accidentnumber = "C"`). -/
def pageOne : ListingPage := { title := "A B C", rows := [rowA] }

/-- A two-record listing page. -/
def pageTwo : ListingPage := { title := "A B C", rows := [rowA, rowB] }

/-- A detail page resolving to `https://dms.ntsb.gov/v.pdf`. -/
def dpA : DetailPage := { inputs := [{}, { value := some "v.pdf" }] }

/-- An environment where everything succeeds. -/
def envGood : Env :=
  { resp := .ok { page := pageTwo }
    detail := fun _ => .ok dpA }

/-- A successful fetch of `pageOne`, with every download attempt a
transport failure (`requests.get` raises). -/
def envNetFail : Env :=
  { resp := .ok { page := pageOne }
    detail := fun _ => .ok dpA
    attempt := fun _ _ => .getRaises }

/-- A successful fetch of `pageOne`, with record 1's file already on
disk (its computed local path for docket "58"). -/
def envHaveFile : Env :=
  { resp := .ok { page := pageOne }
    detail := fun _ => .ok dpA
    initFiles := ["58/2021-01-05-engine-report.pdf"] }

/-- A successful fetch of `pageOne`, with every download attempt failing
in a way the code catches (the open raises after a successful GET). -/
def envAllFail : Env :=
  { resp := .ok { page := pageOne }
    detail := fun _ => .ok dpA
    attempt := fun _ _ => .openRaises }

/-- Attempt outcomes: the initial write fails, the first retry succeeds. -/
def oWriteThenOk : Nat → AOut := fun n => if n = 0 then .writeRaises else .ok

/-- The record the Extractor produces from `rowA`. -/
def recAW : Rec :=
  [("doctitle", .str "Engine Report"),
   ("docmasterurl", .str "https://dms.ntsb.gov/pubdms/search/s.cfm?id=9"),
   ("docdate", .str "2021-01-05"),
   ("docpages", .int 3), ("docphotos", .int 0)]

/-- The record the Extractor produces from `rowDup` (same id as `rowA`). -/
def recDupW : Rec :=
  [("doctitle", .str "Photo A"),
   ("docmasterurl", .str "https://dms.ntsb.gov/pubdms/search/t.cfm?id=4"),
   ("docdate", .str "2020-03-04"),
   ("docpages", .int 0), ("docphotos", .int 0)]

/-- The field names shared by all extracted records. -/
def stdFields : List String :=
  ["doctitle", "docmasterurl", "docdate", "docpages", "docphotos"]

/-! # Theorems -/

/-! ## Helper lemmas on the dictionary operations -/

theorem lookupR_upsert_self (m : RMap) (k : Int) (v : Rec) :
    lookupR (upsert m k v) k = some v := by
  induction m with
  | nil => simp [upsert, lookupR]
  | cons p m ih =>
    by_cases h : p.1 = k
    · simp [upsert, lookupR, h]
    · simp [upsert, lookupR, h, ih]

theorem keys_upsert (m : RMap) (k : Int) (v : Rec) :
    (upsert m k v).map Prod.fst
      = if k ∈ m.map Prod.fst then m.map Prod.fst
        else m.map Prod.fst ++ [k] := by
  induction m with
  | nil => simp [upsert]
  | cons p m ih =>
    by_cases h : p.1 = k
    · subst h
      simp [upsert]
    · have hne : k ≠ p.1 := fun he => h he.symm
      simp only [upsert, if_neg h, List.map_cons, ih]
      by_cases hm : k ∈ List.map Prod.fst m
      · simp [hm, hne]
      · simp [hm, hne]

theorem mem_keys_upsert_self (m : RMap) (k : Int) (v : Rec) :
    k ∈ (upsert m k v).map Prod.fst := by
  rw [keys_upsert]
  by_cases h : k ∈ m.map Prod.fst <;> simp [h]

theorem length_upsert_of_mem (m : RMap) (k : Int) (v : Rec)
    (h : k ∈ m.map Prod.fst) : (upsert m k v).length = m.length := by
  induction m with
  | nil => simp at h
  | cons p m ih =>
    by_cases hp : p.1 = k
    · simp [upsert, hp]
    · have hm : k ∈ m.map Prod.fst := by
        rcases List.mem_cons.mp h with h1 | h1
        · exact absurd h1.symm hp
        · exact h1
      simp [upsert, hp, ih hm]

theorem nodup_keys_upsert (m : RMap) (k : Int) (v : Rec)
    (h : (m.map Prod.fst).Nodup) : ((upsert m k v).map Prod.fst).Nodup := by
  rw [keys_upsert]
  by_cases hm : k ∈ m.map Prod.fst
  · simpa [hm] using h
  · simp only [hm, if_false]
    exact List.Nodup.append h (List.nodup_singleton k)
      (fun a ha hb => hm ((List.mem_singleton.mp hb) ▸ ha))

theorem getF_setF_ne (r : Rec) (k k' : String) (v : FVal) (h : k ≠ k') :
    getF (setF r k v) k' = getF r k' := by
  induction r with
  | nil => simp [setF, getF, h]
  | cons p r ih =>
    by_cases hp : p.1 = k
    · simp [setF, getF, hp, h, hp ▸ h]
    · simp [setF, getF, hp, ih]

/-! ## Claim C2 -/

/-- Claim C2, amended: a record whose computed local path already exists
at download time gets `download_status = "File already existed"` (the
status the spec calls `AlreadyExists`), the disk state is untouched, and
NO download request is issued for it (left conjunct); however, the
URL-resolution loop has already issued one detail-page GET for every
record, existing file or not (right conjunct), so "no network request
for that record" holds only of the download GET. -/
theorem C2_amended :
    (∀ (o : Nat → AOut) (url file : String) (files : List String)
        (net : List Req), file ∈ files →
      downloadRecord o url file files net = .ok (files, net, [stAlreadyExists]))
    ∧ (∀ (det : String → Except Unit DetailPage) (d : String)
        (net : List Req) (kv : Int × Rec) (url : String),
      getF kv.2 "docmasterurl" = some (.str url) →
      Req.resolve url ∈ resNetOf (resolveRecord det d net kv)) := by
  constructor
  · intro o url file files net h
    simp [downloadRecord, h]
  · intro det d net kv url h
    unfold resolveRecord
    rw [h]
    cases hdet : det url with
    | error e => simp [resNetOf, hdet]
    | ok dp =>
      cases hder : deriveDetailUrl dp with
      | error e => simp [resNetOf, hdet, hder]
      | ok durl =>
        cases h1 : getF (setF kv.2 "detailurl" (FVal.str durl)) "doctitle" with
        | none => simp [resNetOf, hdet, hder, h1]
        | some v1 =>
          cases v1 with
          | int n => simp [resNetOf, hdet, hder, h1]
          | str title =>
            cases h2 : getF (setF kv.2 "detailurl" (FVal.str durl)) "docdate" with
            | none => simp [resNetOf, hdet, hder, h1, h2]
            | some v2 =>
              cases v2 with
              | int n => simp [resNetOf, hdet, hder, h1, h2]
              | str dd => simp [resNetOf, hdet, hder, h1, h2]

/-- Claim C2, amended, witness: a record whose file is on disk is
skipped with the already-existed status, no state change and no request. -/
theorem C2_amended_witness :
    downloadRecord (fun _ => AOut.ok) "u" "f" ["f"] []
      = .ok (["f"], [], [stAlreadyExists]) :=
  C2_amended.1 (fun _ => AOut.ok) "u" "f" ["f"] [] (by simp)

/-! ## Claim C3 -/

/-- Claim C3, amended: a listing row whose date field fails to parse is
not skipped — the uncaught `ValueError` from `strptime` aborts the whole
extraction immediately: no later row is processed, and the mapping is
left holding a partial entry for the offending row (its `doctitle` and
`docmasterurl`, which lines 71-76 store before the date parse of line
77). -/
theorem C3_amended (m : RMap) (rest : List Row) (row : Row)
    (c0 c1 c2 : Cell) (k : Int) (h : String)
    (h0 : tdAt row 0 = some c0) (h0i : pyInt? c0.text = some k)
    (h1 : tdAt row 1 = some c1) (h2 : tdAt row 2 = some c2)
    (hh : c2.href = some h)
    (hd : parseDate (pyStrip c1.text) = none) :
    extractRows (row :: rest) m
      = .error ("ValueError",
          upsert m k (setF (setF [] "doctitle" (.str c2.text))
            "docmasterurl" (.str (masterUrlPre ++ h)))) := by
  simp [extractRows, processRow, rowFields, h0, h0i, h1, h2, hh, hd]

/-- Claim C3, amended, witness: the bad-date row aborts extraction with
the partial entry, the following row never processed. -/
theorem C3_amended_witness :
    extractRows [rowBadDate, rowB] []
      = .error ("ValueError",
          upsert [] 7 (setF (setF [] "doctitle" (.str "T"))
            "docmasterurl" (.str (masterUrlPre ++ "u")))) :=
  C3_amended [] [rowB] rowBadDate _ _ _ 7 "u" rfl rfl rfl rfl rfl rfl

/-! ## Claim C4 -/

/-- Claim C4, amended: a listing row whose title cell yields no usable
link does NOT produce a Record with empty `source_url` — the
`masterurlprefix + None` concatenation of lines 74-76 raises an
uncaught `TypeError`, aborting the run with a partial entry (only
`doctitle`) left in the mapping; consequently the Download Engine never
sees such a record, and the code has no `NoUrl` status at all (the only
statuses it ever writes are `Good`, `Bad` and `File already existed`). -/
theorem C4_amended (m : RMap) (rest : List Row) (row : Row)
    (c0 c1 c2 : Cell) (k : Int)
    (h0 : tdAt row 0 = some c0) (h0i : pyInt? c0.text = some k)
    (h1 : tdAt row 1 = some c1) (h2 : tdAt row 2 = some c2)
    (hh : c2.href = none) :
    extractRows (row :: rest) m
      = .error ("TypeError",
          upsert m k (setF [] "doctitle" (.str c2.text))) := by
  simp [extractRows, processRow, rowFields, h0, h0i, h1, h2, hh]

/-- Claim C4, amended, witness: the href-less row aborts extraction with
only the title stored. -/
theorem C4_amended_witness :
    extractRows [rowNoHref] []
      = .error ("TypeError", upsert [] 8 (setF [] "doctitle" (.str "T"))) :=
  C4_amended [] [] rowNoHref _ _ _ 8 rfl rfl rfl rfl rfl

/-- Claim C1 (code bug): the initial download attempt's `requests.get`
(line 158) sits outside the `try` block, so a transport failure on the
very first attempt is an uncaught exception: no retry happens, no
`download_status` is ever written, and the whole run aborts — the code
contradicts the retry-and-continue behaviour of its own retry loop, in
which the same `requests.get` failure is caught.  Left conjunct: for a
record whose file is absent and whose every GET raises, the download
step aborts after one request with no status write.  Right conjunct: at
run level the crawler run aborts (no surviving-run continuation). -/
theorem C1_initial_transport_error_aborts :
    downloadRecord (fun _ => AOut.getRaises) "u" "f" [] []
      = .error ("requests exception", [], [Req.download "u"], [])
    ∧ aborted (runCrawler "58" envNetFail) = true := by
  constructor
  · rfl
  · decide

/-- Claim C2, counterexample: with record 1's file already on disk, the
run still issues the per-record detail-page GET (lines 103-107) for that
record, contradicting "issues no network request for that record"; the
left conjunct shows the premise holds (the record was recognised as
already existing). -/
theorem C2_counterexample :
    writesOf (runCrawler "58" envHaveFile) = [(1, stAlreadyExists)]
    ∧ Req.resolve "https://dms.ntsb.gov/pubdms/search/s.cfm?id=9"
        ∈ netOf (runCrawler "58" envHaveFile) := by
  constructor
  · rfl
  · decide

/-- Claim C3, counterexample: a row whose date fails to parse is not
skipped — the uncaught `ValueError` from `strptime` (line 77) aborts
extraction.  The error state shows a partially filled entry for the
offending row left in the mapping (title and master URL were stored
before the date parse), and the following well-formed row `rowB` was
never processed. -/
theorem C3_counterexample :
    extractRows [rowBadDate, rowB] []
      = .error ("ValueError",
          [(7, [("doctitle", FVal.str "T"),
                ("docmasterurl",
                  FVal.str "https://dms.ntsb.gov/pubdms/search/u")])]) := by
  rfl

/-- Claim C4, counterexample: a row whose title cell has no anchor
`href` does not produce a Record with empty `source_url` — the
`masterurlprefix + None` concatenation (lines 74-76) raises an uncaught
`TypeError` and aborts extraction, leaving only a partial entry. -/
theorem C4_counterexample :
    extractRows [rowNoHref] []
      = .error ("TypeError", [(8, [("doctitle", FVal.str "T")])]) := by
  rfl

/-- Bounds on the number of status writes added by the retry loop: each
budgeted iteration adds at most one write, and writes are never
removed. -/
theorem runRetries_writes_le (o : Nat → AOut) (url file : String) :
    ∀ (b i : Nat) (files : List String) (net : List Req) (ws : List String),
      ws.length ≤ (runRetries o url file b i files net ws).2.2.length
      ∧ (runRetries o url file b i files net ws).2.2.length ≤ ws.length + b := by
  intro b
  induction b with
  | zero =>
    intro i files net ws
    simp [runRetries]
  | succ b ih =>
    intro i files net ws
    simp only [runRetries]
    cases hoi : o i with
    | ok => simp
    | getRaises =>
      obtain ⟨ih1, ih2⟩ :=
        ih (i + 1) files (net ++ [Req.download url]) (ws ++ [stBad])
      simp only [List.length_append, List.length_singleton] at ih1 ih2 ⊢
      omega
    | openRaises =>
      obtain ⟨ih1, ih2⟩ :=
        ih (i + 1) files (net ++ [Req.download url]) (ws ++ [stBad])
      simp only [List.length_append, List.length_singleton] at ih1 ih2 ⊢
      omega
    | writeRaises =>
      obtain ⟨ih1, ih2⟩ :=
        ih (i + 1) (addFile files file) (net ++ [Req.download url])
          (ws ++ [stBad])
      simp only [List.length_append, List.length_singleton] at ih1 ih2 ⊢
      omega

/-- The download loop changes no field other than `download`: the ids
and `localfilename` fields of the mapping it returns are those of its
input (`done` already processed, `todo` still to process). -/
theorem downloadPhase_preserves_localfilename (att : Int → Nat → AOut) :
    ∀ (todo : List (Int × Rec)) (net : List Req) (files : List String)
      (ws : List (Int × String)) (done : RMap) (net' : List Req)
      (files' : List String) (ws' : List (Int × String)) (m2 : RMap),
      downloadPhase att todo net files ws done = .ok (net', files', ws', m2) →
      m2.map (fun kv => (kv.1, getF kv.2 "localfilename"))
        = (done ++ todo).map (fun kv => (kv.1, getF kv.2 "localfilename")) := by
  intro todo
  induction todo with
  | nil =>
    intro net files ws done net' files' ws' m2 h
    simp only [downloadPhase] at h
    obtain ⟨-, -, -, rfl⟩ := Except.ok.inj h
    simp
  | cons kv rest ih =>
    intro net files ws done net' files' ws' m2 h
    obtain ⟨k, r⟩ := kv
    simp only [downloadPhase] at h
    cases hl : getF r "localfilename" with
    | none => rw [hl] at h; cases h
    | some v1 =>
      rw [hl] at h
      cases v1 with
      | int n => cases h
      | str file1 =>
        cases hd : getF r "detailurl" with
        | none => rw [hd] at h; cases h
        | some v2 =>
          rw [hd] at h
          cases v2 with
          | int n => cases h
          | str url1 =>
            dsimp only at h
            cases hdl : downloadRecord (att k) url1 file1 files net with
            | error e =>
              obtain ⟨e1, files1, net1, ws1⟩ := e
              rw [hdl] at h
              cases h
            | ok t =>
              obtain ⟨files1, net1, ws1⟩ := t
              rw [hdl] at h
              have hrec := ih net1 files1
                (ws ++ ws1.map (fun w => (k, w)))
                (done ++ [(k, setF r "download" (.str (ws1.getLastD "")))])
                net' files' ws' m2 h
              rw [hrec]
              simp [getF_setF_ne _ _ _ _
                (by decide : "download" ≠ "localfilename")]

/-- Claim C5, counterexample: the initial listing fetch succeeds
(`envNetFail.resp` is `.ok`), yet the run produces no CSV, because the
one record's initial download GET raises an uncaught transport
exception; this contradicts "whenever the initial listing fetch
succeeds, the run always produces a CSV, even if every individual
download failed". -/
theorem C5_counterexample :
    aborted (runCrawler "58" envNetFail) = true
    ∧ csvOf (runCrawler "58" envNetFail) = none
    ∧ isErr envNetFail.resp = false := by
  refine ⟨by decide, by decide, rfl⟩

/-- Claim C7, counterexample: a download whose initial write fails and
whose first retry succeeds writes the `download` status field twice
(`Bad`, then `Good`), contradicting "written at most once". -/
theorem C7_counterexample :
    downloadRecord oWriteThenOk "u" "f" [] []
      = .ok (["f"], [Req.download "u", Req.download "u"], [stBad, stGood]) := by
  rfl

/-- Claim C8, counterexample: a row with a single column is not
"excluded from the mapping with extraction continuing" — the uncaught
`IndexError` on `td[1]` aborts extraction, the offending row leaves an
empty partial record in the mapping, and the following well-formed row
is never processed. -/
theorem C8_counterexample :
    extractRows [rowShort, rowB] []
      = .error ("IndexError", [(9, [])]) := by
  rfl

/-- Claim C9, counterexample: `strptime` with `%Y` accepts any four
digits, and `strftime`'s `%Y` (glibc) renders the year unpadded, so the
valid source-format string `Jan 5, 0123` converts to `123-01-05`, which
is not the four-digit ISO form `0123-01-05`. -/
theorem C9_counterexample :
    dateToIso "Jan 5, 0123" = some "123-01-05"
    ∧ dateToIso "Jan 5, 0123" ≠ some "0123-01-05" := by
  exact ⟨by rfl, by decide⟩

/-- Claim C5, amended: (1) a transport failure on the listing fetch
aborts the run with no CSV; (2) a non-success HTTP status is NOT
treated as fatal — the run never inspects the status flag, so it behaves
identically whatever the flag is (the error body is parsed as a
listing); (3) any run that completes has produced a CSV; (4) download
failures the code catches (anything but a transport error on a record's
initial GET) never abort the download step, so they alone never prevent
the CSV. -/
theorem C5_amended :
    (∀ (d : String) (e : Env), e.resp = .error () →
        aborted (runCrawler d e) = true ∧ csvOf (runCrawler d e) = none)
    ∧ (∀ (d : String) (page : ListingPage) (b b' : Bool)
          (det : String → Except Unit DetailPage)
          (att : Int → Nat → AOut) (fs : List String),
        runCrawler d ⟨.ok ⟨b, page⟩, det, att, fs⟩
          = runCrawler d ⟨.ok ⟨b', page⟩, det, att, fs⟩)
    ∧ (∀ (d : String) (e : Env) (s : RunState),
        runCrawler d e = .ok s → s.csv.isSome = true)
    ∧ (∀ (o : Nat → AOut) (url file : String) (files : List String)
          (net : List Req), o 0 ≠ AOut.getRaises →
        isErr (downloadRecord o url file files net) = false) := by
  refine ⟨?_, ?_, ?_, ?_⟩
  · intro d e h
    unfold runCrawler
    rw [h]
    exact ⟨rfl, rfl⟩
  · intro d page b b' det att fs
    unfold runCrawler
    rfl
  · intro d e s h
    unfold runCrawler at h
    cases hresp : e.resp with
    | error u => rw [hresp] at h; cases h
    | ok resp =>
      rw [hresp] at h
      dsimp only at h
      cases hacc : (pySplitWs resp.page.title).get? 2 with
      | none => rw [hacc] at h; cases h
      | some accno =>
        rw [hacc] at h
        dsimp only at h
        cases hext : extractRows (allRows resp.page) [] with
        | error em =>
          obtain ⟨e1, m1⟩ := em
          rw [hext] at h; cases h
        | ok m =>
          rw [hext] at h
          dsimp only at h
          cases hres : resolvePhase e.detail d m
              [Req.listing (docketUrlPre ++ d ++ docketUrlSuf)] [] with
          | error er =>
            obtain ⟨e1, n1, m1⟩ := er
            rw [hres] at h; cases h
          | ok p =>
            obtain ⟨net, m1⟩ := p
            rw [hres] at h
            dsimp only at h
            cases hdp : downloadPhase e.attempt (sortByKey m1) net e.initFiles [] [] with
            | error ed =>
              obtain ⟨e1, n1, f1, w1, m2⟩ := ed
              rw [hdp] at h; cases h
            | ok q =>
              obtain ⟨net2, files2, ws2, m2⟩ := q
              rw [hdp] at h
              dsimp only at h
              cases hcsv : csvPhase accno d m2 with
              | error ec =>
                obtain ⟨e1, content⟩ := ec
                rw [hcsv] at h; cases h
              | ok content =>
                rw [hcsv] at h
                dsimp only at h
                cases h
                rfl
  · intro o url file files net h
    unfold downloadRecord
    by_cases hf : file ∈ files
    · simp [hf, isErr]
    · rw [if_neg hf]
      dsimp only
      cases h0 : o 0 with
      | getRaises => exact absurd h0 h
      | openRaises => simp [isErr, h0]
      | writeRaises => simp [isErr, h0]
      | ok => simp [isErr, h0]

/-- Claim C5, amended, witness: a listing-fetch transport failure yields
an aborted run with no CSV, and a caught download failure does not abort
the download step. -/
theorem C5_amended_witness :
    (aborted (runCrawler "58" { resp := .error () }) = true
      ∧ csvOf (runCrawler "58" { resp := .error () }) = none)
    ∧ isErr (downloadRecord (fun _ => AOut.openRaises) "u" "f" [] []) = false :=
  ⟨C5_amended.1 "58" { resp := .error () } rfl,
   C5_amended.2.2.2 (fun _ => AOut.openRaises) "u" "f" [] [] (by decide)⟩

/-- Claim C7, amended: a record's `local_path` (`localfilename`) is
computed once by the URL-resolution loop and never altered afterwards —
the download loop only ever touches the `download` field (left
conjunct) — but `download_status` is NOT write-once: the download step
writes it once on the skip/first-success paths and once per failed
attempt plus any final success write on the retry path, i.e. between 1
and 4 times (right conjunct). -/
theorem C7_amended :
    (∀ (att : Int → Nat → AOut) (todo : List (Int × Rec)) (net : List Req)
        (files : List String) (ws : List (Int × String)) (done : RMap)
        (net' : List Req) (files' : List String) (ws' : List (Int × String))
        (m2 : RMap),
      downloadPhase att todo net files ws done = .ok (net', files', ws', m2) →
      m2.map (fun kv => (kv.1, getF kv.2 "localfilename"))
        = (done ++ todo).map (fun kv => (kv.1, getF kv.2 "localfilename")))
    ∧ (∀ (o : Nat → AOut) (url file : String) (files : List String)
        (net : List Req) (files' : List String) (net' : List Req)
        (ws : List String),
      downloadRecord o url file files net = .ok (files', net', ws) →
      1 ≤ ws.length ∧ ws.length ≤ 4) := by
  constructor
  · exact fun att => downloadPhase_preserves_localfilename att
  · intro o url file files net files' net' ws h
    unfold downloadRecord at h
    by_cases hf : file ∈ files
    · rw [if_pos hf] at h
      obtain ⟨-, -, rfl⟩ := Except.ok.inj h
      simp
    · rw [if_neg hf] at h
      dsimp only at h
      cases h0 : o 0 with
      | getRaises => rw [h0] at h; cases h
      | ok =>
        rw [h0] at h
        obtain ⟨-, -, rfl⟩ := Except.ok.inj h
        simp
      | openRaises =>
        rw [h0] at h
        have hb := runRetries_writes_le o url file 3 1 files
          (net ++ [Req.download url]) [stBad]
        rw [Except.ok.inj h] at hb
        simpa using hb
      | writeRaises =>
        rw [h0] at h
        have hb := runRetries_writes_le o url file 3 1 (addFile files file)
          (net ++ [Req.download url]) [stBad]
        rw [Except.ok.inj h] at hb
        simpa using hb

/-- Claim C7, amended, witness: the failed-then-successful download of
`oWriteThenOk` produced two status writes, within the proven 1..4
bounds. -/
theorem C7_amended_witness :
    1 ≤ [stBad, stGood].length ∧ [stBad, stGood].length ≤ 4 :=
  C7_amended.2 oWriteThenOk "u" "f" [] [] ["f"]
    [Req.download "u", Req.download "u"] [stBad, stGood] (by rfl)

/-- Claim C8, amended: a listing row with fewer than three columns is
not silently excluded — processing it raises an uncaught `IndexError`
(or `ValueError` on a malformed id), aborting extraction (left
conjunct); rows with at least three well-formed columns are extracted in
full, with the missing fourth and fifth columns coerced to
`docpages = docphotos = 0` (right conjunct). -/
theorem C8_amended :
    (∀ (m : RMap) (row : Row), row.tds.length < 3 →
      isErr (processRow m row) = true)
    ∧ (∀ (m : RMap) (row : Row) (c0 c1 c2 : Cell) (k : Int) (h : String)
        (y mo dd : Nat),
      row.tds.length = 3 →
      tdAt row 0 = some c0 → pyInt? c0.text = some k →
      tdAt row 1 = some c1 → parseDate (pyStrip c1.text) = some (y, mo, dd) →
      tdAt row 2 = some c2 → c2.href = some h →
      processRow m row
        = .ok (upsert m k
            [("doctitle", FVal.str c2.text),
             ("docmasterurl", FVal.str (masterUrlPre ++ h)),
             ("docdate", FVal.str (isoOf y mo dd)),
             ("docpages", FVal.int 0), ("docphotos", FVal.int 0)])) := by
  constructor
  · intro m row hlt
    have h2 : tdAt row 2 = none := by
      simp only [tdAt]
      exact List.get?_eq_none.mpr (by omega)
    cases h0 : tdAt row 0 with
    | none => simp [processRow, isErr, h0]
    | some c0 =>
      cases hi : pyInt? c0.text with
      | none => simp [processRow, isErr, h0, hi]
      | some k =>
        cases ht1 : tdAt row 1 with
        | none => simp [processRow, rowFields, isErr, h0, hi, ht1]
        | some c1 => simp [processRow, rowFields, isErr, h0, hi, ht1, h2]
  · intro m row c0 c1 c2 k h y mo dd hlen h0 hi h1 hd h2 hh
    have h3 : tdAt row 3 = none := by
      simp only [tdAt]
      exact List.get?_eq_none.mpr (by omega)
    have h4 : tdAt row 4 = none := by
      simp only [tdAt]
      exact List.get?_eq_none.mpr (by omega)
    simp [processRow, rowFields, h0, hi, h1, hd, h2, hh, pagesOf, h3, h4,
      setF]

/-- Claim C8, amended, witness: the single-column row `rowShort` aborts
row processing. -/
theorem C8_amended_witness : isErr (processRow [] rowShort) = true :=
  C8_amended.1 [] rowShort (by decide)

/-! ## Claim C9 -/

theorem digitVal_le (c : Char) (h : c.isDigit = true) : digitVal c ≤ 9 := by
  simp only [Char.isDigit, decide_eq_true_eq, Bool.and_eq_true] at h
  have h2 : c.toNat ≤ 57 := h.2
  simp only [digitVal]
  omega

theorem monthAux_bounds :
    ∀ (ns : List String) (i : Nat) (cs : List Char) (mo : Nat)
      (rest : List Char),
      monthAux i ns cs = some (mo, rest) → i ≤ mo ∧ mo < i + ns.length := by
  intro ns
  induction ns with
  | nil => intro i cs mo rest h; simp [monthAux] at h
  | cons n ns ih =>
    intro i cs mo rest h
    simp only [monthAux] at h
    cases ht : takeChars n.toList cs with
    | some r =>
      rw [ht] at h
      obtain ⟨rfl, -⟩ := Prod.mk.injEq .. ▸ Option.some.inj h
      simp
    | none =>
      rw [ht] at h
      obtain ⟨h1, h2⟩ := ih (i + 1) cs mo rest h
      constructor <;> [omega; (simp only [List.length_cons]; omega)]

theorem parseMonthL_bounds (cs : List Char) (mo : Nat) (rest : List Char)
    (h : parseMonthL cs = some (mo, rest)) : 1 ≤ mo ∧ mo ≤ 12 := by
  obtain ⟨h1, h2⟩ := monthAux_bounds monthNames 1 cs mo rest h
  simp only [monthNames, List.length_cons, List.length_nil] at h2
  omega

theorem parseDayL_bounds :
    ∀ (cs : List Char) (d : Nat) (rest : List Char),
      parseDayL cs = some (d, rest) → 1 ≤ d ∧ d ≤ 31 := by
  intro cs d rest h
  match cs with
  | [] => simp [parseDayL] at h
  | [c] =>
    simp only [parseDayL] at h
    split at h
    · next hc =>
      simp only [Bool.and_eq_true, decide_eq_true_eq] at hc
      obtain ⟨rfl, -⟩ := Prod.mk.injEq .. ▸ Option.some.inj h
      exact ⟨hc.2, le_trans (digitVal_le c hc.1) (by omega)⟩
    · cases h
  | c1 :: c2 :: rs =>
    simp only [parseDayL] at h
    split at h
    · split at h
      · next hv =>
        simp only [Bool.and_eq_true, decide_eq_true_eq] at hv
        obtain ⟨rfl, -⟩ := Prod.mk.injEq .. ▸ Option.some.inj h
        exact ⟨hv.1, hv.2⟩
      · cases h
    · split at h
      · next hc =>
        simp only [Bool.and_eq_true, decide_eq_true_eq] at hc
        obtain ⟨rfl, -⟩ := Prod.mk.injEq .. ▸ Option.some.inj h
        exact ⟨hc.2, le_trans (digitVal_le c1 hc.1) (by omega)⟩
      · cases h

theorem parse4Y_le :
    ∀ (cs : List Char) (y : Nat) (rest : List Char),
      parse4Y cs = some (y, rest) → y ≤ 9999 := by
  intro cs y rest h
  match cs with
  | [] => simp [parse4Y] at h
  | [_] => simp [parse4Y] at h
  | [_, _] => simp [parse4Y] at h
  | [_, _, _] => simp [parse4Y] at h
  | a :: b :: c :: d :: rs =>
    simp only [parse4Y] at h
    split at h
    · next hc =>
      simp only [Bool.and_eq_true] at hc
      obtain ⟨⟨⟨ha, hb⟩, hcd⟩, hd⟩ := hc
      obtain ⟨rfl, -⟩ := Prod.mk.injEq .. ▸ Option.some.inj h
      have h1 := digitVal_le a ha
      have h2 := digitVal_le b hb
      have h3 := digitVal_le c hcd
      have h4 := digitVal_le d hd
      omega
    · cases h

theorem daysInMonth_le (y m : Nat) : daysInMonth y m ≤ 31 := by
  unfold daysInMonth
  by_cases h2 : m = 2
  · simp only [h2, if_pos]
    split <;> omega
  · rw [if_neg h2]
    split <;> omega

theorem pad2_length (n : Nat) (h : n ≤ 31) : (pad2 n).length = 2 := by
  interval_cases n <;> rfl

/-- Claim C9, amended: on every string the strptime model accepts, the
date conversion yields `str(year) ++ "-" ++ MM ++ "-" ++ DD` with month
and day zero-padded to two digits and all components validated
(month 1..12, day 1..days-in-month, year 1..9999); since glibc's
`%Y` does not zero-pad, the output is the exact ISO form `YYYY-MM-DD`
precisely when the year needs four digits (every realistic docket date),
while years below 1000 render with fewer digits. -/
theorem C9_amended (s : String) (y mo dd : Nat)
    (h : parseDate s = some (y, mo, dd)) :
    dateToIso s = some (toString y ++ "-" ++ pad2 mo ++ "-" ++ pad2 dd)
    ∧ 1 ≤ y ∧ y ≤ 9999 ∧ 1 ≤ mo ∧ mo ≤ 12 ∧ 1 ≤ dd
    ∧ dd ≤ daysInMonth y mo
    ∧ (pad2 mo).length = 2 ∧ (pad2 dd).length = 2 := by
  have hiso : dateToIso s = some (toString y ++ "-" ++ pad2 mo ++ "-" ++ pad2 dd) := by
    simp [dateToIso, h, isoOf]
  refine ⟨hiso, ?_⟩
  unfold parseDate at h
  cases hm : parseMonthL (lowerChars s.data) with
  | none => rw [hm] at h; cases h
  | some p1 =>
    obtain ⟨mo1, cs1⟩ := p1
    rw [hm] at h
    dsimp only at h
    cases hw : dropWs1 cs1 with
    | none => rw [hw] at h; cases h
    | some cs2 =>
      rw [hw] at h
      dsimp only at h
      cases hd : parseDayL cs2 with
      | none => rw [hd] at h; cases h
      | some p2 =>
        obtain ⟨dd1, cs3⟩ := p2
        rw [hd] at h
        dsimp only at h
        cases cs3 with
        | nil => cases h
        | cons c cs4 =>
          dsimp only at h
          by_cases hc : c = ','
          swap
          · rw [if_neg hc] at h; cases h
          · rw [if_pos hc] at h
            cases hw2 : dropWs1 cs4 with
            | none => rw [hw2] at h; cases h
            | some cs5 =>
              rw [hw2] at h
              dsimp only at h
              cases h4 : parse4Y cs5 with
              | none => rw [h4] at h; cases h
              | some p3 =>
                obtain ⟨y1, rest⟩ := p3
                rw [h4] at h
                dsimp only at h
                cases rest with
                | cons r rs => cases h
                | nil =>
                  by_cases hcond : 1 ≤ y1 ∧ dd1 ≤ daysInMonth y1 mo1
                  · have hb : (decide (1 ≤ y1)
                        && decide (dd1 ≤ daysInMonth y1 mo1)) = true := by
                      simp [hcond.1, hcond.2]
                    rw [if_pos hb] at h
                    obtain ⟨rfl, rfl, rfl⟩ : y1 = y ∧ mo1 = mo ∧ dd1 = dd := by
                      simpa using Option.some.inj h
                    obtain ⟨hm1, hm2⟩ := parseMonthL_bounds _ _ _ hm
                    obtain ⟨hd1, -⟩ := parseDayL_bounds _ _ _ hd
                    have hy2 := parse4Y_le _ _ _ h4
                    exact ⟨hcond.1, hy2, hm1, hm2, hd1, hcond.2,
                      pad2_length mo1 (le_trans hm2 (by omega)),
                      pad2_length dd1
                        (le_trans hcond.2 (daysInMonth_le y1 mo1))⟩
                  · have hb : ¬ ((decide (1 ≤ y1)
                        && decide (dd1 ≤ daysInMonth y1 mo1)) = true) := by
                      simp only [Bool.and_eq_true, decide_eq_true_eq]
                      exact hcond
                    rw [if_neg hb] at h
                    cases h

/-- Claim C9, amended, witness: the conversion of `Jan 5, 2021` with all
the proven bounds instantiated. -/
theorem C9_amended_witness :
    dateToIso "Jan 5, 2021"
      = some (toString 2021 ++ "-" ++ pad2 1 ++ "-" ++ pad2 5)
    ∧ 1 ≤ 2021 ∧ 2021 ≤ 9999 ∧ 1 ≤ 1 ∧ 1 ≤ 12 ∧ 1 ≤ 5
    ∧ 5 ≤ daysInMonth 2021 1
    ∧ (pad2 1).length = 2 ∧ (pad2 5).length = 2 :=
  C9_amended "Jan 5, 2021" 2021 1 5 (by rfl)

/-! ## Claim C6 -/

theorem sortByKey_perm (m : RMap) : (sortByKey m).Perm m :=
  List.perm_insertionSort _ m

theorem sortByKey_sorted (m : RMap) :
    (sortByKey m).Sorted (fun a b : Int × Rec => a.1 ≤ b.1) := by
  haveI : IsTotal (Int × Rec) (fun a b => a.1 ≤ b.1) :=
    ⟨fun a b => le_total a.1 b.1⟩
  haveI : IsTrans (Int × Rec) (fun a b => a.1 ≤ b.1) :=
    ⟨fun _ _ _ hab hbc => le_trans hab hbc⟩
  exact List.sorted_insertionSort _ m

theorem sortByKey_sorted_lt (m : RMap) (hnd : (m.map Prod.fst).Nodup) :
    (sortByKey m).Sorted (fun a b : Int × Rec => a.1 < b.1) := by
  have hle := sortByKey_sorted m
  have hndk : ((sortByKey m).map Prod.fst).Nodup :=
    ((sortByKey_perm m).map Prod.fst).nodup_iff.mpr hnd
  have hpne : (sortByKey m).Pairwise (fun a b => a.1 ≠ b.1) :=
    List.pairwise_map.mp hndk
  exact List.Pairwise.imp₂ (fun _ _ hab hne => lt_of_le_of_ne hab hne)
    hle hpne

/-- Sorting the mapping by record id is a function of the entry multiset
alone: any insertion order yields the same sorted list (keys must be
unique, as they are for every mapping a dict produces). -/
theorem sortByKey_eq_of_perm (m m2 : RMap) (hp : m.Perm m2)
    (hnd : (m.map Prod.fst).Nodup) : sortByKey m2 = sortByKey m := by
  haveI : IsAntisymm (Int × Rec) (fun a b => a.1 < b.1) :=
    ⟨fun a b hab hba => absurd hba (not_lt.mpr (le_of_lt hab))⟩
  have hnd2 : (m2.map Prod.fst).Nodup := (hp.map Prod.fst).nodup_iff.mp hnd
  exact List.eq_of_perm_of_sorted
    ((sortByKey_perm m2).trans (hp.symm.trans (sortByKey_perm m).symm))
    (sortByKey_sorted_lt m2 hnd2) (sortByKey_sorted_lt m hnd)

theorem map_fst_sortFields (r : Rec) :
    (sortFields r).map Prod.fst
      = List.insertionSort (fun a b : String => a ≤ b) (r.map Prod.fst) :=
  List.map_insertionSort _ _ _ _ (fun _ _ _ _ => Iff.rfl)

/-- Claim C6: applied to a nonempty mapping with unique keys whose
records all carry the field names `fields0` (as every completed run's
records do), the CSV block emits a header of the three run-identifying
columns followed by the field names in sorted order, then exactly one
data row per record; the rows follow the key-sorted order of the
mapping, the keys of that order are strictly ascending, and the sorted
order (hence the whole CSV) is independent of the mapping's insertion
order. -/
theorem C6_report (accno d : String) (m : RMap) (fields0 : List String)
    (hne : m ≠ []) (hnd : (m.map Prod.fst).Nodup)
    (hall : ∀ kv ∈ m, kv.2.map Prod.fst = fields0) :
    ∃ last rows,
      (sortByKey m).getLast? = some last
      ∧ csvPhase accno d (sortByKey m)
          = .ok ((["accidentnumber", "docketid", "recordnumber"]
              ++ List.insertionSort (fun a b : String => a ≤ b) fields0)
            :: rows)
      ∧ rows.length = m.length
      ∧ rows = (sortByKey m).map (fun kv => renderRow accno d kv.1 kv.2)
      ∧ ((sortByKey m).map Prod.fst).Sorted (fun a b => a < b)
      ∧ ∀ m2 : RMap, m.Perm m2 → sortByKey m2 = sortByKey m := by
  have hlne : sortByKey m ≠ [] := by
    intro h0
    have hlen := (sortByKey_perm m).length_eq
    rw [h0] at hlen
    exact hne (List.eq_nil_of_length_eq_zero hlen.symm)
  obtain ⟨last, hlast⟩ : ∃ a, (sortByKey m).getLast? = some a := by
    cases hL : (sortByKey m).getLast? with
    | none => exact absurd (List.getLast?_eq_none_iff.mp hL) hlne
    | some a => exact ⟨a, rfl⟩
  have hlastmem : last ∈ m := by
    have hmem : last ∈ (sortByKey m).getLast? := Option.mem_def.mpr hlast
    obtain ⟨hne', heq⟩ := List.mem_getLast?_eq_getLast hmem
    exact (sortByKey_perm m).subset (heq ▸ List.getLast_mem hne')
  refine ⟨last, (sortByKey m).map (fun kv => renderRow accno d kv.1 kv.2),
    hlast, ?_, ?_, rfl, ?_, ?_⟩
  · have hhdr : headerOf last.2
        = ["accidentnumber", "docketid", "recordnumber"]
          ++ List.insertionSort (fun a b : String => a ≤ b) fields0 := by
      unfold headerOf
      rw [map_fst_sortFields, hall last hlastmem]
    simp [csvPhase, hlast, hhdr]
  · rw [List.length_map]
    exact (sortByKey_perm m).length_eq
  · exact List.pairwise_map.mpr (sortByKey_sorted_lt m hnd)
  · exact fun m2 hp => sortByKey_eq_of_perm m m2 hp hnd

/-- Claim C6, witness: the two-record mapping inserted in descending
order is emitted ascending, one row per record, with the sorted header. -/
theorem C6_report_witness :
    ∃ last rows,
      (sortByKey [(2, recDupW), (1, recAW)]).getLast? = some last
      ∧ csvPhase "C" "58" (sortByKey [(2, recDupW), (1, recAW)])
          = .ok ((["accidentnumber", "docketid", "recordnumber"]
              ++ List.insertionSort (fun a b : String => a ≤ b) stdFields)
            :: rows)
      ∧ rows.length = ([(2, recDupW), (1, recAW)] : RMap).length
      ∧ rows = (sortByKey [(2, recDupW), (1, recAW)]).map
          (fun kv => renderRow "C" "58" kv.1 kv.2)
      ∧ ((sortByKey [(2, recDupW), (1, recAW)]).map Prod.fst).Sorted
          (fun a b => a < b)
      ∧ sortByKey [(1, recAW), (2, recDupW)]
          = sortByKey [(2, recDupW), (1, recAW)] := by
  obtain ⟨last, rows, h1, h2, h3, h4, h5, h6⟩ :=
    C6_report "C" "58" [(2, recDupW), (1, recAW)] stdFields
      (by simp) (by decide) (by decide)
  exact ⟨last, rows, h1, h2, h3, h4, h5, h6 _ (by decide)⟩

/-! ## Claim C10 -/

/-- Claim C10: when a second listing row carries the id of an earlier
one, processing it succeeds silently (there is no error or warning
path), the mapping's entry for that id becomes exactly the second row's
record (last row wins), the mapping does not grow — no trace of the
collision is kept — and key-uniqueness is preserved as an unchecked
invariant, never enforced. -/
theorem C10_last_wins (m m1 : RMap) (r1 r2 : Row) (c0 c0' : Cell)
    (k : Int) (rec2 : Rec)
    (h0 : tdAt r1 0 = some c0) (h0i : pyInt? c0.text = some k)
    (h1 : tdAt r2 0 = some c0') (h1i : pyInt? c0'.text = some k)
    (hp1 : processRow m r1 = .ok m1)
    (hf2 : rowFields r2 = Sum.inr rec2) :
    processRow m1 r2 = .ok (upsert m1 k rec2)
    ∧ lookupR (upsert m1 k rec2) k = some rec2
    ∧ (upsert m1 k rec2).length = m1.length
    ∧ ((m.map Prod.fst).Nodup → ((upsert m1 k rec2).map Prod.fst).Nodup) := by
  have hinv : ∃ rec1, rowFields r1 = Sum.inr rec1 ∧ m1 = upsert m k rec1 := by
    unfold processRow at hp1
    rw [h0] at hp1
    dsimp only at hp1
    rw [h0i] at hp1
    dsimp only at hp1
    cases hf1 : rowFields r1 with
    | inl e =>
      rw [hf1] at hp1
      dsimp only at hp1
      cases hp1
    | inr rec1 =>
      rw [hf1] at hp1
      dsimp only at hp1
      exact ⟨rec1, rfl, (Except.ok.inj hp1).symm⟩
  obtain ⟨rec1, hf1, rfl⟩ := hinv
  have hk1 : k ∈ (upsert m k rec1).map Prod.fst := mem_keys_upsert_self m k rec1
  refine ⟨?_, lookupR_upsert_self _ _ _,
    length_upsert_of_mem _ _ _ hk1, ?_⟩
  · simp [processRow, h1, h1i, hf2]
  · intro hnd
    exact nodup_keys_upsert _ _ _ (nodup_keys_upsert _ _ _ hnd)

/-- Claim C10, witness: `rowDup` carries `rowA`'s id 1; processing it
after `rowA` silently replaces the entry, keeps the mapping at one
entry, and preserves key uniqueness. -/
theorem C10_last_wins_witness :
    processRow [(1, recAW)] rowDup = .ok (upsert [(1, recAW)] 1 recDupW)
    ∧ lookupR (upsert [(1, recAW)] 1 recDupW) 1 = some recDupW
    ∧ (upsert [(1, recAW)] 1 recDupW).length = [(1, recAW)].length
    ∧ ((upsert [(1, recAW)] 1 recDupW).map Prod.fst).Nodup :=
  have h := C10_last_wins [] [(1, recAW)] rowA rowDup
    { text := "1" } { text := "1" } 1 recDupW
    rfl rfl rfl rfl (by rfl) (by rfl)
  ⟨h.1, h.2.1, h.2.2.1, h.2.2.2 (by simp)⟩

end Ntsb
